import Mathlib

/-!
Verification of the controller propagation engine of the PILCO repository
(`pilco/controllers.py`): the sine squashing transform, the affine controller,
the deterministic-GP (RBF) controller, and the gating/combined controller.

Beliefs are row vectors: a mean is a `1 × n` real matrix and a covariance an
`n × n` real matrix, mirroring the TensorFlow shapes in the source.
-/

namespace PILCO

noncomputable section

open Real Matrix

/-- Real matrices indexed by `Fin`, the shape convention of the source. -/
abbrev Mat (m n : ℕ) : Type := Matrix (Fin m) (Fin n) ℝ

/-- Two-argument arctangent `atan2 y x`, the convention of `tf.math.atan2`
(the C library `atan2`): the angle of the point `(x, y)` in `(-π, π]`, with
`atan2 0 0 = 0`. -/
def atan2 (y x : ℝ) : ℝ :=
  if 0 < x then arctan (y / x)
  else if x < 0 then
    if 0 ≤ y then arctan (y / x) + π else arctan (y / x) - π
  else if 0 < y then π / 2
  else if y < 0 then -(π / 2)
  else 0

/-- `squash_sin(m, s, max_action)` from `pilco/controllers.py`: closed-form
mean, covariance and input-output covariance of `max_action * sin(x)` for
`x ~ N(m, s)`.  Entries are written pointwise, following the TensorFlow
broadcasting of the source expressions:
`M = max_action * exp(-diag_part(s)/2) * sin(m)`;
`lq = -(diag_part(s)[:,None] + diag_part(s)[None,:])/2`, `q = exp(lq)`;
`S = max_action * max_actionᵀ * ((exp(lq+s)-q)*cos(mᵀ-m) - (exp(lq-s)-q)*cos(mᵀ+m)) / 2`;
`C = max_action * diag(exp(-diag_part(s)/2) * cos(m))` reshaped to `k × k`
(a diagonal matrix).  A missing `max_action` (`None` in the source) is the
all-ones vector. -/
def squash_sin {k : ℕ} (m : Mat 1 k) (s : Mat k k) (max_action : Option (Fin k → ℝ)) :
    Mat 1 k × Mat k k × Mat k k :=
  let a : Fin k → ℝ := max_action.getD fun _ => 1
  let M : Mat 1 k := Matrix.of fun _ i => a i * exp (-(s i i) / 2) * sin (m 0 i)
  let S : Mat k k := Matrix.of fun i j =>
    a i * a j *
      ((exp (-(s i i + s j j) / 2 + s i j) - exp (-(s i i + s j j) / 2)) * cos (m 0 i - m 0 j) -
        (exp (-(s i i + s j j) / 2 - s i j) - exp (-(s i i + s j j) / 2)) * cos (m 0 i + m 0 j)) / 2
  let C : Mat k k := Matrix.of fun i j =>
    if i = j then a i * exp (-(s i i) / 2) * cos (m 0 i) else 0
  (M, S, C)

/-- `LinearController.compute_action(m, s, squash)`:
`M = m @ Wᵀ + b`, `S = W @ s @ Wᵀ`, `V = Wᵀ`; when `squash` holds the pair
`(M, S)` is passed through `squash_sin` and `V` is right-multiplied by the
squashing input-output covariance. -/
def linear_compute_action {state_dim control_dim : ℕ}
    (W : Mat control_dim state_dim) (b : Mat 1 control_dim)
    (max_action : Option (Fin control_dim → ℝ))
    (m : Mat 1 state_dim) (s : Mat state_dim state_dim) (squash : Bool) :
    Mat 1 control_dim × Mat control_dim control_dim × Mat state_dim control_dim :=
  let M := m * Wᵀ + b
  let S := W * s * Wᵀ
  let V := Wᵀ
  if squash then
    let Q := squash_sin M S max_action
    (Q.1, Q.2.1, V * Q.2.2)
  else (M, S, V)

/-- Modelled from the spec: `MGPR.calculate_factorizations` and
`MGPR.predict_given_factorizations` live in `pilco/models.py`, which is not
among the sources here.  The spec treats them as a black-box capability:
a cached factorization `(iK, beta)` (one `num_points × num_points` matrix and
one `num_points × 1` vector per output dimension), a per-output signal
variance, and a predictive-moment routine
`predict(mean_s, cov_s, iK_like, beta) -> (mean_a, cov_a, cross_cov)`.
All of these are taken as parameters.
`RbfController.compute_action` itself is embedded from
`pilco/controllers.py`: it calls the predictive routine with `0.0 * iK` in
place of `iK` and subtracts `diag(variance - 1e-6)` from the predicted
covariance, then optionally squashes. -/
def rbf_compute_action {state_dim control_dim num_points : ℕ}
    (predict : Mat 1 state_dim → Mat state_dim state_dim →
      (Fin control_dim → Mat num_points num_points) → (Fin control_dim → Mat num_points 1) →
      Mat 1 control_dim × Mat control_dim control_dim × Mat state_dim control_dim)
    (iK : Fin control_dim → Mat num_points num_points)
    (beta : Fin control_dim → Mat num_points 1)
    (variance : Fin control_dim → ℝ)
    (max_action : Option (Fin control_dim → ℝ))
    (m : Mat 1 state_dim) (s : Mat state_dim state_dim) (squash : Bool) :
    Mat 1 control_dim × Mat control_dim control_dim × Mat state_dim control_dim :=
  let P := predict m s (fun i => (0 : ℝ) • iK i) beta
  let M := P.1
  let S := P.2.1 - Matrix.diagonal fun i => variance i - 1e-6
  let V := P.2.2
  if squash then
    let Q := squash_sin M S max_action
    (Q.1, Q.2.1, V * Q.2.2)
  else (M, S, V)

/-- `CombinedController.compute_ratio(x)`:
`r = (x - a) @ S @ (x - a)ᵀ` (a `1 × 1` matrix, read off as a scalar), then
`ratio = -1/π * atan2(-r * zeta, 1 - r²)`. -/
def compute_ratio {state_dim : ℕ} (a : Mat 1 state_dim) (S : Mat state_dim state_dim)
    (zeta : ℝ) (x : Mat 1 state_dim) : ℝ :=
  let r := ((x - a) * S * (x - a)ᵀ) 0 0
  let ratio := -(1 / π) * atan2 (-(r * zeta)) (1 - r ^ 2)
  ratio

/-- `CombinedController.compute_action(m, s, squash)`: blends the affine
controller and the RBF controller (each evaluated with `squash=False`) by
`r = compute_ratio(m)`:
`M = (1-r)*M1 + r*M2`, `V = (1-r)*V1 + r*V2`, and
`S = (1-r)*S1 + r*S2 + (1-r)*(M1-M)@(M1-M)ᵀ + r*(M2-M)@(M2-M)ᵀ`.
With `M1, M2, M` of shape `1 × control_dim`, each product
`(Mi - M) @ (Mi - M)ᵀ` is a `1 × 1` matrix, and TensorFlow broadcasting adds
its single entry to every entry of the `control_dim × control_dim` sum; the
embedding writes that broadcast out pointwise. -/
def combined_compute_action {state_dim control_dim num_points : ℕ}
    (W : Mat control_dim state_dim) (b : Mat 1 control_dim)
    (a : Mat 1 state_dim) (Sg : Mat state_dim state_dim) (zeta : ℝ)
    (predict : Mat 1 state_dim → Mat state_dim state_dim →
      (Fin control_dim → Mat num_points num_points) → (Fin control_dim → Mat num_points 1) →
      Mat 1 control_dim × Mat control_dim control_dim × Mat state_dim control_dim)
    (iK : Fin control_dim → Mat num_points num_points)
    (beta : Fin control_dim → Mat num_points 1)
    (variance : Fin control_dim → ℝ)
    (max_action : Option (Fin control_dim → ℝ))
    (m : Mat 1 state_dim) (s : Mat state_dim state_dim) (squash : Bool) :
    Mat 1 control_dim × Mat control_dim control_dim × Mat state_dim control_dim :=
  let r := compute_ratio a Sg zeta m
  let L := linear_compute_action W b max_action m s false
  let R := rbf_compute_action predict iK beta variance max_action m s false
  let M : Mat 1 control_dim := Matrix.of fun u i => (1 - r) * L.1 u i + r * R.1 u i
  let S : Mat control_dim control_dim := Matrix.of fun i j =>
    (1 - r) * L.2.1 i j + r * R.2.1 i j
      + (1 - r) * ((L.1 - M) * (L.1 - M)ᵀ) 0 0 + r * ((R.1 - M) * (R.1 - M)ᵀ) 0 0
  let V : Mat state_dim control_dim := Matrix.of fun i j => (1 - r) * L.2.2 i j + r * R.2.2 i j
  if squash then
    let Q := squash_sin M S max_action
    (Q.1, Q.2.1, V * Q.2.2)
  else (M, S, V)

/-- One output model of the RBF controller, as built by
`RbfController.create_models` from a `FakeGPR` holding pseudo-inputs `X`,
pseudo-outputs `Y` (one column per model) and an ARD RBF kernel with
per-dimension length-scales and a signal variance. -/
structure RbfModelState (num_points state_dim : ℕ) where
  X : Mat num_points state_dim
  Y : Mat num_points 1
  lengthscales : Fin state_dim → ℝ
  kern_variance : ℝ

/-- `RbfController.randomize()`: for every output model, overwrite `X` and `Y`
with `0 + 0.1 * (fresh normal draw)` and the length-scales with
`1 + 0.1 * (fresh normal draw)`; the fresh standard-normal draws are passed
explicitly.  The kernel signal variance is not assigned. -/
def rbf_randomize {control_dim num_points state_dim : ℕ}
    (models : Fin control_dim → RbfModelState num_points state_dim)
    (epsX : Fin control_dim → Mat num_points state_dim)
    (epsY : Fin control_dim → Mat num_points 1)
    (epsL : Fin control_dim → Fin state_dim → ℝ) :
    Fin control_dim → RbfModelState num_points state_dim :=
  fun i =>
    { X := Matrix.of fun u v => 0 + 0.1 * epsX i u v
      Y := Matrix.of fun u v => 0 + 0.1 * epsY i u v
      lengthscales := fun v => 1 + 0.1 * epsL i v
      kern_variance := (models i).kern_variance }

/-- `CombinedController.__init__` initial value of the gate matrix `S`:
`np.random.randn(3, 1) * np.identity(3)`, a `(3, 1)` standard-normal draw
broadcast against the `3 × 3` identity — a `3 × 3` diagonal matrix whatever
the `state_dim` argument is. -/
def combined_S_init (draw : Fin 3 → ℝ) : Mat 3 3 :=
  Matrix.of fun i j => draw i * (if i = j then 1 else 0)

/-- Shape of the initial gate matrix produced by `CombinedController.__init__`,
as a function of the `state_dim` argument: always `(3, 3)`. -/
def combined_S_init_shape (_state_dim : ℕ) : ℕ × ℕ := (3, 3)

/-- Shape the gate matrix `S` must have for `compute_ratio` to typecheck:
`(x - a) @ S @ (x - a)ᵀ` with `x` of shape `1 × state_dim` needs
`S : state_dim × state_dim`. -/
def compute_ratio_S_shape (state_dim : ℕ) : ℕ × ℕ := (state_dim, state_dim)

/-- A concrete stand-in for the black-box GP predictive routine, used to
evaluate the combined controller at explicit inputs: it ignores its arguments
and returns the action belief `([[0, 2]], 0, 0)`. -/
def predict2 : Mat 1 2 → Mat 2 2 → (Fin 2 → Mat 1 1) → (Fin 2 → Mat 1 1) →
    Mat 1 2 × Mat 2 2 × Mat 2 2 := fun _ _ _ _ => (!![0, 2], 0, 0)

/-- A concrete stand-in for the black-box GP predictive routine in dimension
one: it ignores its arguments and returns the zero belief. -/
def predict1 : Mat 1 1 → Mat 1 1 → (Fin 1 → Mat 1 1) → (Fin 1 → Mat 1 1) →
    Mat 1 1 × Mat 1 1 × Mat 1 1 := fun _ _ _ _ => (0, 0, 0)

/-- `atan2` always exceeds `-π`. -/
theorem neg_pi_lt_atan2 (y x : ℝ) : -π < atan2 y x := by
  have hπ := pi_pos
  unfold atan2
  split_ifs with h1 h2 h3 h4 h5
  · have := neg_pi_div_two_lt_arctan (y / x)
    linarith
  · have := neg_pi_div_two_lt_arctan (y / x)
    linarith
  · have hx : x < 0 := h2
    have hy : y < 0 := lt_of_not_ge h3
    have hyx : 0 < y / x := div_pos_iff.mpr (Or.inr ⟨hy, hx⟩)
    have harc : arctan 0 < arctan (y / x) := arctan_strictMono hyx
    rw [Real.arctan_zero] at harc
    linarith
  · linarith
  · linarith
  · linarith

/-- `atan2 y x` is nonpositive when `y < 0`, or when `y = 0` with `0 < x`. -/
theorem atan2_nonpos (y x : ℝ) (h : y < 0 ∨ (y = 0 ∧ 0 < x)) : atan2 y x ≤ 0 := by
  have hπ := pi_pos
  rcases h with hy | ⟨hy, hx⟩
  · unfold atan2
    split_ifs with h1 h2 h3 h4
    · have hd : y / x ≤ 0 := le_of_lt (div_neg_of_neg_of_pos hy h1)
      have := arctan_strictMono.monotone hd
      rwa [Real.arctan_zero] at this
    · linarith
    · have := arctan_lt_pi_div_two (y / x)
      linarith
    · linarith
    · linarith
  · subst hy
    unfold atan2
    rw [if_pos hx]
    simp [Real.arctan_zero]

/-- A row `v : 1 × n` against a positive-semidefinite matrix `S`: the single
entry of the `1 × 1` product `v * S * vᵀ` is nonnegative. -/
theorem quadform_entry_nonneg {n : ℕ} {S : Mat n n} (hS : S.PosSemidef) (v : Mat 1 n) :
    0 ≤ (v * S * vᵀ) 0 0 := by
  have h := hS.2 fun i => v 0 i
  have he : dotProduct (star fun i => v 0 i) (S *ᵥ fun i => v 0 i)
      = (v * S * vᵀ) 0 0 := by
    simp only [dotProduct, Matrix.mulVec, Matrix.mul_apply, Matrix.transpose_apply,
      Pi.star_apply, star_trivial]
    simp_rw [Finset.sum_mul, Finset.mul_sum, mul_assoc]
    rw [Finset.sum_comm]
  rwa [he] at h

/-- The single entry of `A * Aᵀ` for a row `A : 1 × c` is nonnegative. -/
theorem rowrow_entry_nonneg {c : ℕ} (A : Mat 1 c) : 0 ≤ (A * Aᵀ) 0 0 := by
  rw [Matrix.mul_apply]
  refine Finset.sum_nonneg fun u _ => ?_
  rw [Matrix.transpose_apply]
  exact mul_self_nonneg _

/-- The single entry of `(A - B) * (A - B)ᵀ` for rows `A B : 1 × c` is the
squared Euclidean norm of the entrywise difference. -/
theorem row_diff_sq_entry {c : ℕ} (A B : Mat 1 c) :
    ((A - B) * (A - B)ᵀ) 0 0 = ∑ u, (A 0 u - B 0 u) ^ 2 := by
  rw [Matrix.mul_apply]
  refine Finset.sum_congr rfl fun u _ => ?_
  rw [Matrix.transpose_apply, Matrix.sub_apply]
  ring

/-- A constant matrix with a nonnegative entry is positive semidefinite. -/
theorem posSemidef_const_matrix (d : ℕ) (c : ℝ) (hc : 0 ≤ c) :
    (Matrix.of fun _ _ : Fin d => c).PosSemidef := by
  constructor
  · ext i j
    simp [Matrix.conjTranspose_apply]
  · intro x
    have he : dotProduct (star x) ((Matrix.of fun _ _ : Fin d => c) *ᵥ x)
        = c * (∑ i, x i) ^ 2 := by
      simp only [dotProduct, Matrix.mulVec, Matrix.of_apply, Pi.star_apply, star_trivial]
      simp_rw [← Finset.mul_sum]
      rw [← Finset.sum_mul]
      ring
    rw [he]
    positivity

/-- The `1 × 1` matrix `[[1]]` is positive definite. -/
theorem one_one_posDef : (!![(1:ℝ)]).PosDef := by
  have h : !![(1:ℝ)] = (1 : Mat 1 1) := by
    ext i j
    fin_cases i
    fin_cases j
    simp
  rw [h]
  exact Matrix.PosDef.one

/-- The gate ratio lies in `[0, 1)` whenever the gate matrix is positive
semidefinite and the sharpness is positive. -/
theorem compute_ratio_bounds_aux {n : ℕ} {a : Mat 1 n} {Sg : Mat n n} {zeta : ℝ}
    (x : Mat 1 n) (hS : Sg.PosSemidef) (hz : 0 < zeta) :
    0 ≤ compute_ratio a Sg zeta x ∧ compute_ratio a Sg zeta x < 1 := by
  have hπ := pi_pos
  have hr : 0 ≤ ((x - a) * Sg * (x - a)ᵀ) 0 0 := quadform_entry_nonneg hS (x - a)
  have key : compute_ratio a Sg zeta x
      = -(1 / π) * atan2 (-(((x - a) * Sg * (x - a)ᵀ) 0 0 * zeta))
          (1 - ((x - a) * Sg * (x - a)ᵀ) 0 0 ^ 2) := rfl
  constructor
  · rw [key]
    have hA : atan2 (-(((x - a) * Sg * (x - a)ᵀ) 0 0 * zeta))
        (1 - ((x - a) * Sg * (x - a)ᵀ) 0 0 ^ 2) ≤ 0 := by
      rcases eq_or_lt_of_le hr with h0 | h0
      · refine atan2_nonpos _ _ (Or.inr ⟨?_, ?_⟩)
        · rw [← h0]
          ring
        · rw [← h0]
          norm_num
      · refine atan2_nonpos _ _ (Or.inl ?_)
        have : 0 < ((x - a) * Sg * (x - a)ᵀ) 0 0 * zeta := mul_pos h0 hz
        linarith
    have hq : 0 ≤ (1 / π) * (-(atan2 (-(((x - a) * Sg * (x - a)ᵀ) 0 0 * zeta))
        (1 - ((x - a) * Sg * (x - a)ᵀ) 0 0 ^ 2))) := by
      apply mul_nonneg
      · positivity
      · linarith
    linarith [hq]
  · rw [key]
    have hA := neg_pi_lt_atan2 (-(((x - a) * Sg * (x - a)ᵀ) 0 0 * zeta))
      (1 - ((x - a) * Sg * (x - a)ᵀ) 0 0 ^ 2)
    have hrw : -(1 / π) * atan2 (-(((x - a) * Sg * (x - a)ᵀ) 0 0 * zeta))
        (1 - ((x - a) * Sg * (x - a)ᵀ) 0 0 ^ 2)
        = (-(atan2 (-(((x - a) * Sg * (x - a)ᵀ) 0 0 * zeta))
            (1 - ((x - a) * Sg * (x - a)ᵀ) 0 0 ^ 2))) / π := by
      ring
    rw [hrw, div_lt_one hπ]
    linarith

/-- Claim C3: `squash_sin` returns exactly the closed-form moments of
`a * sin(x)`: `mean_out[i] = max_action[i] * exp(-cov_in[i,i]/2) * sin(mean_in[i])`;
`cov_out[i,j]` is the stated pairwise formula with
`lq[i,j] = -(cov_in[i,i] + cov_in[j,j])/2`; the cross covariance is diagonal
with `cross_cov[i,i] = max_action[i] * exp(-cov_in[i,i]/2) * cos(mean_in[i])`;
and a missing `max_action` is treated as the all-ones vector. -/
theorem squash_sin_moments (k : ℕ) (m : Mat 1 k) (s : Mat k k) (ma : Fin k → ℝ) :
    (∀ i, (squash_sin m s (some ma)).1 0 i = ma i * exp (-(s i i) / 2) * sin (m 0 i)) ∧
    (∀ i j, (squash_sin m s (some ma)).2.1 i j =
      ma i * ma j / 2 *
        ((exp (-(s i i + s j j) / 2 + s i j) - exp (-(s i i + s j j) / 2)) * cos (m 0 i - m 0 j) -
          (exp (-(s i i + s j j) / 2 - s i j) - exp (-(s i i + s j j) / 2)) * cos (m 0 i + m 0 j))) ∧
    (∀ i j, (squash_sin m s (some ma)).2.2 i j =
      if i = j then ma i * exp (-(s i i) / 2) * cos (m 0 i) else 0) ∧
    squash_sin m s none = squash_sin m s (some fun _ => 1) := by
  refine ⟨fun i => rfl, fun i j => ?_, fun i j => rfl, rfl⟩
  show ma i * ma j *
      ((exp (-(s i i + s j j) / 2 + s i j) - exp (-(s i i + s j j) / 2)) * cos (m 0 i - m 0 j) -
        (exp (-(s i i + s j j) / 2 - s i j) - exp (-(s i i + s j j) / 2)) * cos (m 0 i + m 0 j)) / 2
    = _
  ring

/-- Claim C5: `LinearController.compute_action` with `squash=false` returns
`mean_a = m @ Wᵀ + b`, `cov_a = W @ s @ Wᵀ`, `cross_cov = Wᵀ`; a zero state
covariance gives a zero action covariance; and on the concrete scenario
`state_dim = 2, control_dim = 1, W = [[1,0]], b = [[0]], mean_s = [0,0],
cov_s = I₂, max_action = 2, squash = false` it returns
`mean_a = [[0]], cov_a = [[1]], cross_cov = [[1],[0]]`. -/
theorem linear_compute_action_spec :
    (∀ (n c : ℕ) (W : Mat c n) (b : Mat 1 c) (ma : Option (Fin c → ℝ))
        (m : Mat 1 n) (s : Mat n n),
      linear_compute_action W b ma m s false = (m * Wᵀ + b, W * s * Wᵀ, Wᵀ)) ∧
    (∀ (n c : ℕ) (W : Mat c n) (b : Mat 1 c) (ma : Option (Fin c → ℝ)) (m : Mat 1 n),
      (linear_compute_action W b ma m (0 : Mat n n) false).2.1 = 0) ∧
    linear_compute_action !![(1:ℝ), 0] !![(0:ℝ)] (some fun _ => 2) !![(0:ℝ), 0]
        (1 : Mat 2 2) false
      = (!![(0:ℝ)], !![(1:ℝ)], !![(1:ℝ); 0]) := by
  refine ⟨fun n c W b ma m s => rfl, fun n c W b ma m => ?_, ?_⟩
  · show W * (0 : Mat n n) * Wᵀ = 0
    simp
  · refine Prod.ext ?_ (Prod.ext ?_ ?_)
    · show !![(0:ℝ), 0] * !![(1:ℝ), 0]ᵀ + !![(0:ℝ)] = !![(0:ℝ)]
      ext i j
      fin_cases i; fin_cases j
      simp [Matrix.mul_apply, Fin.sum_univ_two]
    · show !![(1:ℝ), 0] * (1 : Mat 2 2) * !![(1:ℝ), 0]ᵀ = !![(1:ℝ)]
      ext i j
      fin_cases i; fin_cases j
      simp [Matrix.mul_apply, Fin.sum_univ_two]
    · show !![(1:ℝ), 0]ᵀ = !![(1:ℝ); 0]
      ext i j
      fin_cases i <;> fin_cases j <;> simp

/-- Claim C4: `RbfController.compute_action` calls the GP predictive-moment
routine with the inverse-kernel matrices replaced by their zeroed versions
`0.0 * iK` (which are the zero matrices), and subtracts
`diag(variance - 1e-6)` from the predicted action covariance before any
squashing. -/
theorem rbf_compute_action_zeroed_iK (n c p : ℕ)
    (predict : Mat 1 n → Mat n n → (Fin c → Mat p p) → (Fin c → Mat p 1) →
      Mat 1 c × Mat c c × Mat n c)
    (iK : Fin c → Mat p p) (beta : Fin c → Mat p 1) (variance : Fin c → ℝ)
    (ma : Option (Fin c → ℝ)) (m : Mat 1 n) (s : Mat n n) :
    (fun i => (0 : ℝ) • iK i) = (fun _ => (0 : Mat p p)) ∧
    rbf_compute_action predict iK beta variance ma m s false =
      ((predict m s (fun _ => (0 : Mat p p)) beta).1,
        (predict m s (fun _ => (0 : Mat p p)) beta).2.1
          - Matrix.diagonal (fun i => variance i - 1e-6),
        (predict m s (fun _ => (0 : Mat p p)) beta).2.2) ∧
    (rbf_compute_action predict iK beta variance ma m s true).2.1 =
      (squash_sin (predict m s (fun _ => (0 : Mat p p)) beta).1
        ((predict m s (fun _ => (0 : Mat p p)) beta).2.1
          - Matrix.diagonal (fun i => variance i - 1e-6)) ma).2.1 := by
  have hz : (fun i => (0 : ℝ) • iK i) = (fun _ => (0 : Mat p p)) := by
    funext i
    exact zero_smul ℝ (iK i)
  refine ⟨hz, ?_, ?_⟩ <;> simp [rbf_compute_action, hz]

/-- Claim C9: `RbfController.randomize` overwrites, in every output model, the
pseudo-inputs and pseudo-outputs with `0 + 0.1 * (standard-normal draw)` and
the per-dimension length-scales with `1 + 0.1 * (standard-normal draw)`, and
leaves the kernel signal variance of every output model unchanged. -/
theorem rbf_randomize_spec (c N n : ℕ) (models : Fin c → RbfModelState N n)
    (epsX : Fin c → Mat N n) (epsY : Fin c → Mat N 1)
    (epsL : Fin c → Fin n → ℝ) (i : Fin c) :
    (rbf_randomize models epsX epsY epsL i).X
        = Matrix.of (fun u v => 0 + 0.1 * epsX i u v) ∧
    (rbf_randomize models epsX epsY epsL i).Y
        = Matrix.of (fun u v => 0 + 0.1 * epsY i u v) ∧
    (rbf_randomize models epsX epsY epsL i).lengthscales
        = (fun v => 1 + 0.1 * epsL i v) ∧
    (rbf_randomize models epsX epsY epsL i).kern_variance
        = (models i).kern_variance :=
  ⟨rfl, rfl, rfl, rfl⟩

/-- Claim C10: the gate matrix initializer of `CombinedController.__init__` is
a fixed `3 × 3` diagonal matrix independent of the `state_dim` argument, so its
shape agrees with the shape `compute_ratio` needs exactly when
`state_dim = 3`. -/
theorem combined_S_init_spec :
    (∀ d d' : ℕ, combined_S_init_shape d = combined_S_init_shape d') ∧
    (∀ d : ℕ, combined_S_init_shape d = compute_ratio_S_shape d ↔ d = 3) ∧
    (∀ (draw : Fin 3 → ℝ) (i j : Fin 3),
      combined_S_init draw i j = if i = j then draw i else 0) := by
  refine ⟨fun d d' => rfl, fun d => ?_, fun draw i j => ?_⟩
  · simp only [combined_S_init_shape, compute_ratio_S_shape, Prod.mk.injEq]
    omega
  · by_cases h : i = j <;> simp [combined_S_init, h]

/-- Claim C1, counterexample: with `a = [[0]]`, `S = [[1]]`, `zeta = 1/2 > 0`
and the state at the reference location, the quadratic form `r_raw` is `0`,
yet `compute_ratio` returns `0`, not `0.5`. -/
theorem compute_ratio_center_cex :
    ((!![(0:ℝ)] - !![(0:ℝ)]) * !![(1:ℝ)] * (!![(0:ℝ)] - !![(0:ℝ)])ᵀ) 0 0 = 0 ∧
    (0:ℝ) < 1 / 2 ∧
    compute_ratio !![(0:ℝ)] !![(1:ℝ)] (1 / 2) !![(0:ℝ)] = 0 ∧
    compute_ratio !![(0:ℝ)] !![(1:ℝ)] (1 / 2) !![(0:ℝ)] ≠ 1 / 2 := by
  have hr : ((!![(0:ℝ)] - !![(0:ℝ)]) * !![(1:ℝ)] * (!![(0:ℝ)] - !![(0:ℝ)])ᵀ) 0 0 = 0 := by
    simp
  have hv : compute_ratio !![(0:ℝ)] !![(1:ℝ)] (1 / 2) !![(0:ℝ)] = 0 := by
    have key : compute_ratio !![(0:ℝ)] !![(1:ℝ)] (1 / 2) !![(0:ℝ)]
        = -(1 / π) * atan2
            (-(((!![(0:ℝ)] - !![(0:ℝ)]) * !![(1:ℝ)] * (!![(0:ℝ)] - !![(0:ℝ)])ᵀ) 0 0 * (1 / 2)))
            (1 - ((!![(0:ℝ)] - !![(0:ℝ)]) * !![(1:ℝ)] * (!![(0:ℝ)] - !![(0:ℝ)])ᵀ) 0 0 ^ 2) := rfl
    rw [key, hr]
    norm_num [atan2, Real.arctan_zero]
  refine ⟨hr, by norm_num, hv, ?_⟩
  rw [hv]
  norm_num

/-- Claim C1 (amended): for every state and every `zeta`, `compute_ratio`
returns exactly `0` — not `0.5` — whenever the quadratic form
`r_raw = (mean_s - a)·S·(mean_s - a)ᵗ` is `0`. -/
theorem compute_ratio_center_zero {n : ℕ} (a : Mat 1 n) (Sg : Mat n n) (zeta : ℝ)
    (x : Mat 1 n) (h : ((x - a) * Sg * (x - a)ᵀ) 0 0 = 0) :
    compute_ratio a Sg zeta x = 0 := by
  have key : compute_ratio a Sg zeta x
      = -(1 / π) * atan2 (-(((x - a) * Sg * (x - a)ᵀ) 0 0 * zeta))
          (1 - ((x - a) * Sg * (x - a)ᵀ) 0 0 ^ 2) := rfl
  rw [key, h]
  norm_num [atan2, Real.arctan_zero]

/-- Witness for the amended claim C1, at `state_dim = 2`, `zeta = 5`. -/
theorem compute_ratio_center_zero_witness :
    ((!![(0:ℝ), 0] - !![(0:ℝ), 0]) * (1 : Mat 2 2) * (!![(0:ℝ), 0] - !![(0:ℝ), 0])ᵀ) 0 0 = 0 ∧
    compute_ratio !![(0:ℝ), 0] (1 : Mat 2 2) 5 !![(0:ℝ), 0] = 0 :=
  ⟨by simp, compute_ratio_center_zero !![(0:ℝ), 0] (1 : Mat 2 2) 5 !![(0:ℝ), 0] (by simp)⟩

/-- Claim C7, counterexample: with a positive-definite gate matrix and a
positive sharpness, the ratio at the reference location is `0`, which is not
strictly inside `(0, 1)`. -/
theorem compute_ratio_not_in_open_cex :
    (!![(1:ℝ)]).PosDef ∧ (0:ℝ) < 1 ∧
    compute_ratio !![(0:ℝ)] !![(1:ℝ)] 1 !![(0:ℝ)] = 0 ∧
    ¬(0 < compute_ratio !![(0:ℝ)] !![(1:ℝ)] 1 !![(0:ℝ)]) := by
  have hv : compute_ratio !![(0:ℝ)] !![(1:ℝ)] 1 !![(0:ℝ)] = 0 := by
    have key : compute_ratio !![(0:ℝ)] !![(1:ℝ)] 1 !![(0:ℝ)]
        = -(1 / π) * atan2
            (-(((!![(0:ℝ)] - !![(0:ℝ)]) * !![(1:ℝ)] * (!![(0:ℝ)] - !![(0:ℝ)])ᵀ) 0 0 * 1))
            (1 - ((!![(0:ℝ)] - !![(0:ℝ)]) * !![(1:ℝ)] * (!![(0:ℝ)] - !![(0:ℝ)])ᵀ) 0 0 ^ 2) := rfl
    have hr : ((!![(0:ℝ)] - !![(0:ℝ)]) * !![(1:ℝ)] * (!![(0:ℝ)] - !![(0:ℝ)])ᵀ) 0 0 = 0 := by
      simp
    rw [key, hr]
    norm_num [atan2, Real.arctan_zero]
  exact ⟨one_one_posDef, one_pos, hv, by rw [hv]; exact lt_irrefl 0⟩

/-- Claim C7 (amended): with a positive-definite gate matrix and a positive
sharpness, `compute_ratio` returns a scalar in the half-open interval `[0, 1)`;
the left endpoint `0` is attained (at the reference location), so the open
interval of the original claim is off only at that endpoint. -/
theorem compute_ratio_bounds {n : ℕ} (a : Mat 1 n) (Sg : Mat n n) (zeta : ℝ)
    (x : Mat 1 n) (hS : Sg.PosDef) (hz : 0 < zeta) :
    0 ≤ compute_ratio a Sg zeta x ∧ compute_ratio a Sg zeta x < 1 :=
  compute_ratio_bounds_aux x hS.posSemidef hz

/-- Witness for the amended claim C7. -/
theorem compute_ratio_bounds_witness :
    (!![(1:ℝ)]).PosDef ∧ (0:ℝ) < 1 ∧
    (0 ≤ compute_ratio !![(0:ℝ)] !![(1:ℝ)] 1 !![(2:ℝ)] ∧
      compute_ratio !![(0:ℝ)] !![(1:ℝ)] 1 !![(2:ℝ)] < 1) :=
  ⟨one_one_posDef, one_pos,
    compute_ratio_bounds !![(0:ℝ)] !![(1:ℝ)] 1 !![(2:ℝ)] one_one_posDef one_pos⟩

/-- Claim C8, counterexample: for the merely-symmetric (not positive
semidefinite) input covariance `[[-1]]` and mean `[[0]]`, the diagonal entry of
the covariance returned by `squash_sin` is `(1 - e²)/2 < 0`. -/
theorem squash_sin_diag_neg_cex :
    (!![(-1:ℝ)]).IsSymm ∧ (squash_sin !![(0:ℝ)] !![(-1:ℝ)] none).2.1 0 0 < 0 := by
  constructor
  · apply Matrix.IsSymm.ext
    intro i j
    fin_cases i
    fin_cases j
    rfl
  · have key : (squash_sin !![(0:ℝ)] !![(-1:ℝ)] none).2.1 0 0
        = 1 * 1 *
            ((exp (-((-1:ℝ) + (-1)) / 2 + (-1)) - exp (-((-1:ℝ) + (-1)) / 2)) * cos ((0:ℝ) - 0) -
              (exp (-((-1:ℝ) + (-1)) / 2 - (-1)) - exp (-((-1:ℝ) + (-1)) / 2)) * cos ((0:ℝ) + 0))
            / 2 := rfl
    rw [key]
    have he2 : (1:ℝ) < exp 2 := Real.one_lt_exp_iff.mpr (by norm_num)
    norm_num [Real.exp_zero, Real.cos_zero]
    linarith

/-- Claim C8 (amended): for every symmetric input covariance the covariance
returned by `squash_sin` is symmetric, and its diagonal entries are
nonnegative provided the input covariance has nonnegative diagonal entries (as
every positive-semidefinite covariance does); for a symmetric input with a
negative diagonal entry the output diagonal can be negative. -/
theorem squash_sin_cov_invariant {k : ℕ} (m : Mat 1 k) (s : Mat k k)
    (ma : Option (Fin k → ℝ)) (hs : s.IsSymm) :
    ((squash_sin m s ma).2.1).IsSymm ∧
    (∀ i, 0 ≤ s i i → 0 ≤ (squash_sin m s ma).2.1 i i) := by
  constructor
  · apply Matrix.IsSymm.ext
    intro i j
    show (ma.getD fun _ => 1) j * (ma.getD fun _ => 1) i *
        ((exp (-(s j j + s i i) / 2 + s j i) - exp (-(s j j + s i i) / 2)) * cos (m 0 j - m 0 i) -
          (exp (-(s j j + s i i) / 2 - s j i) - exp (-(s j j + s i i) / 2)) * cos (m 0 j + m 0 i))
          / 2
      = (ma.getD fun _ => 1) i * (ma.getD fun _ => 1) j *
        ((exp (-(s i i + s j j) / 2 + s i j) - exp (-(s i i + s j j) / 2)) * cos (m 0 i - m 0 j) -
          (exp (-(s i i + s j j) / 2 - s i j) - exp (-(s i i + s j j) / 2)) * cos (m 0 i + m 0 j))
          / 2
    have hsym : s j i = s i j := hs.apply i j
    have h1 : m 0 j - m 0 i = -(m 0 i - m 0 j) := by ring
    have h2 : m 0 j + m 0 i = m 0 i + m 0 j := by ring
    have h3 : s j j + s i i = s i i + s j j := by ring
    rw [hsym, h1, Real.cos_neg, h2, h3]
    ring
  · intro i hi
    show 0 ≤ (ma.getD fun _ => 1) i * (ma.getD fun _ => 1) i *
        ((exp (-(s i i + s i i) / 2 + s i i) - exp (-(s i i + s i i) / 2)) * cos (m 0 i - m 0 i) -
          (exp (-(s i i + s i i) / 2 - s i i) - exp (-(s i i + s i i) / 2)) * cos (m 0 i + m 0 i))
          / 2
    have e0 : -(s i i + s i i) / 2 + s i i = 0 := by ring
    have e1 : -(s i i + s i i) / 2 = -(s i i) := by ring
    have e2 : -(s i i + s i i) / 2 - s i i = -(s i i) + -(s i i) := by ring
    have e3 : m 0 i - m 0 i = 0 := by ring
    rw [e0, e2, e1, e3, Real.exp_zero, Real.cos_zero, Real.exp_add]
    have htpos : 0 < exp (-(s i i)) := Real.exp_pos _
    have htle : exp (-(s i i)) ≤ 1 := Real.exp_le_one_iff.mpr (by linarith)
    have hc2 : -1 ≤ cos (m 0 i + m 0 i) := Real.neg_one_le_cos _
    have ha : 0 ≤ (ma.getD fun _ => 1) i * (ma.getD fun _ => 1) i := mul_self_nonneg _
    have hinner : 0 ≤ (1 - exp (-(s i i))) * 1 -
        (exp (-(s i i)) * exp (-(s i i)) - exp (-(s i i))) * cos (m 0 i + m 0 i) := by
      have hkey : (1 - exp (-(s i i))) * 1 -
          (exp (-(s i i)) * exp (-(s i i)) - exp (-(s i i))) * cos (m 0 i + m 0 i)
          = (1 - exp (-(s i i))) * (1 + exp (-(s i i)) * cos (m 0 i + m 0 i)) := by
        ring
      rw [hkey]
      apply mul_nonneg
      · linarith
      · have := mul_le_mul_of_nonneg_left hc2 (le_of_lt htpos)
        have hn : exp (-(s i i)) * (-1) = -(exp (-(s i i))) := by ring
        rw [hn] at this
        linarith
    have := mul_nonneg ha hinner
    linarith

/-- Witness for the amended claim C8, at the zero belief in one dimension. -/
theorem squash_sin_cov_invariant_witness :
    (0 : Mat 1 1).IsSymm ∧ (0:ℝ) ≤ (0 : Mat 1 1) 0 0 ∧
    (((squash_sin (0 : Mat 1 1) 0 none).2.1).IsSymm ∧
      0 ≤ (squash_sin (0 : Mat 1 1) 0 none).2.1 0 0) := by
  have h := squash_sin_cov_invariant (0 : Mat 1 1) 0 none Matrix.isSymm_zero
  exact ⟨Matrix.isSymm_zero, le_refl 0, h.1, h.2 0 (le_refl 0)⟩

/-- Claim C2 (amended): with `squash=false`, `CombinedController.compute_action`
returns the ratio blend of its two sub-controllers evaluated unsquashed:
`mean = (1-ratio)*mean1 + ratio*mean2`,
`cross_cov = (1-ratio)*cross1 + ratio*cross2`, and
`cov[i,j] = (1-ratio)*cov1[i,j] + ratio*cov2[i,j]
  + (1-ratio)*|mean1-mean|² + ratio*|mean2-mean|²` — the spread terms
`(meanᵢ-mean)(meanᵢ-mean)ᵗ` are `1 × 1` products of row vectors (squared
Euclidean norms), and their scalar value is broadcast-added to every entry of
the covariance, not the `control_dim × control_dim` outer product. -/
theorem combined_blend_moments (n c p : ℕ)
    (W : Mat c n) (b : Mat 1 c) (a : Mat 1 n) (Sg : Mat n n) (zeta : ℝ)
    (predict : Mat 1 n → Mat n n → (Fin c → Mat p p) → (Fin c → Mat p 1) →
      Mat 1 c × Mat c c × Mat n c)
    (iK : Fin c → Mat p p) (beta : Fin c → Mat p 1) (variance : Fin c → ℝ)
    (ma : Option (Fin c → ℝ)) (m : Mat 1 n) (s : Mat n n) :
    (∀ i, (combined_compute_action W b a Sg zeta predict iK beta variance ma m s false).1 0 i
        = (1 - compute_ratio a Sg zeta m)
              * (linear_compute_action W b ma m s false).1 0 i
            + compute_ratio a Sg zeta m
              * (rbf_compute_action predict iK beta variance ma m s false).1 0 i) ∧
    (∀ i j,
      (combined_compute_action W b a Sg zeta predict iK beta variance ma m s false).2.2 i j
        = (1 - compute_ratio a Sg zeta m)
              * (linear_compute_action W b ma m s false).2.2 i j
            + compute_ratio a Sg zeta m
              * (rbf_compute_action predict iK beta variance ma m s false).2.2 i j) ∧
    (∀ i j,
      (combined_compute_action W b a Sg zeta predict iK beta variance ma m s false).2.1 i j
        = (1 - compute_ratio a Sg zeta m)
              * (linear_compute_action W b ma m s false).2.1 i j
            + compute_ratio a Sg zeta m
              * (rbf_compute_action predict iK beta variance ma m s false).2.1 i j
            + (1 - compute_ratio a Sg zeta m)
              * (∑ u, ((linear_compute_action W b ma m s false).1 0 u
                  - (combined_compute_action W b a Sg zeta predict iK beta variance ma m s
                      false).1 0 u) ^ 2)
            + compute_ratio a Sg zeta m
              * (∑ u, ((rbf_compute_action predict iK beta variance ma m s false).1 0 u
                  - (combined_compute_action W b a Sg zeta predict iK beta variance ma m s
                      false).1 0 u) ^ 2)) := by
  refine ⟨fun i => rfl, fun i j => rfl, fun i j => ?_⟩
  have hc : (combined_compute_action W b a Sg zeta predict iK beta variance ma m s false).1
      = Matrix.of fun u i => (1 - compute_ratio a Sg zeta m)
            * (linear_compute_action W b ma m s false).1 u i
          + compute_ratio a Sg zeta m
            * (rbf_compute_action predict iK beta variance ma m s false).1 u i := rfl
  have hkey :
      (combined_compute_action W b a Sg zeta predict iK beta variance ma m s false).2.1 i j
      = (1 - compute_ratio a Sg zeta m) * (linear_compute_action W b ma m s false).2.1 i j
          + compute_ratio a Sg zeta m
            * (rbf_compute_action predict iK beta variance ma m s false).2.1 i j
          + (1 - compute_ratio a Sg zeta m)
            * (((linear_compute_action W b ma m s false).1
                  - (combined_compute_action W b a Sg zeta predict iK beta variance ma m s
                      false).1)
                * ((linear_compute_action W b ma m s false).1
                  - (combined_compute_action W b a Sg zeta predict iK beta variance ma m s
                      false).1)ᵀ) 0 0
          + compute_ratio a Sg zeta m
            * (((rbf_compute_action predict iK beta variance ma m s false).1
                  - (combined_compute_action W b a Sg zeta predict iK beta variance ma m s
                      false).1)
                * ((rbf_compute_action predict iK beta variance ma m s false).1
                  - (combined_compute_action W b a Sg zeta predict iK beta variance ma m s
                      false).1)ᵀ) 0 0 := rfl
  rw [hkey, row_diff_sq_entry, row_diff_sq_entry]

/-- Claim C2, counterexample: with `control_dim = 2`, at a state with
`ratio = 1/2`, sub-controller means `[[1,0]]` and `[[0,2]]` and zero
sub-controller covariances, the code's blended covariance entry `(0,0)` is
`5/4` (the broadcast scalar `(1-r)*|mean1-mean|² + r*|mean2-mean|²`), while
the claimed outer-product formula gives `1/4` at that entry. -/
theorem combined_cov_broadcast_cex :
    compute_ratio !![(0:ℝ), 0] (1 : Mat 2 2) (1 / 2) !![(1:ℝ), 0] = 1 / 2 ∧
    (linear_compute_action (1 : Mat 2 2) !![(0:ℝ), 0] none !![(1:ℝ), 0] 0 false).1
        = !![(1:ℝ), 0] ∧
    (linear_compute_action (1 : Mat 2 2) !![(0:ℝ), 0] none !![(1:ℝ), 0] 0 false).2.1 = 0 ∧
    (rbf_compute_action predict2 (fun _ => !![0]) (fun _ => !![0]) (fun _ => 1e-6) none
        !![(1:ℝ), 0] 0 false).1 = !![(0:ℝ), 2] ∧
    (rbf_compute_action predict2 (fun _ => !![0]) (fun _ => !![0]) (fun _ => 1e-6) none
        !![(1:ℝ), 0] 0 false).2.1 = 0 ∧
    (combined_compute_action (1 : Mat 2 2) !![(0:ℝ), 0] !![(0:ℝ), 0] (1 : Mat 2 2) (1 / 2)
        predict2 (fun _ => !![0]) (fun _ => !![0]) (fun _ => 1e-6) none
        !![(1:ℝ), 0] 0 false).1 = !![(1/2 : ℝ), 1] ∧
    (combined_compute_action (1 : Mat 2 2) !![(0:ℝ), 0] !![(0:ℝ), 0] (1 : Mat 2 2) (1 / 2)
        predict2 (fun _ => !![0]) (fun _ => !![0]) (fun _ => 1e-6) none
        !![(1:ℝ), 0] 0 false).2.1 0 0 = 5 / 4 ∧
    ((1 - (1/2 : ℝ)) • (0 : Mat 2 2) + (1/2 : ℝ) • (0 : Mat 2 2)
        + (1 - (1/2 : ℝ)) • ((!![(1:ℝ), 0] - !![(1/2 : ℝ), 1])ᵀ
            * (!![(1:ℝ), 0] - !![(1/2 : ℝ), 1]))
        + (1/2 : ℝ) • ((!![(0:ℝ), 2] - !![(1/2 : ℝ), 1])ᵀ
            * (!![(0:ℝ), 2] - !![(1/2 : ℝ), 1]))) 0 0 = 1 / 4 ∧
    (5 / 4 : ℝ) ≠ 1 / 4 := by
  have hπ := pi_pos
  have hr : ((!![(1:ℝ), 0] - !![(0:ℝ), 0]) * (1 : Mat 2 2)
      * (!![(1:ℝ), 0] - !![(0:ℝ), 0])ᵀ) 0 0 = 1 := by
    rw [Matrix.mul_one, Matrix.mul_apply, Fin.sum_univ_two]
    simp [Matrix.sub_apply]
  have hratio : compute_ratio !![(0:ℝ), 0] (1 : Mat 2 2) (1 / 2) !![(1:ℝ), 0] = 1 / 2 := by
    have key : compute_ratio !![(0:ℝ), 0] (1 : Mat 2 2) (1 / 2) !![(1:ℝ), 0]
        = -(1 / π) * atan2
            (-(((!![(1:ℝ), 0] - !![(0:ℝ), 0]) * (1 : Mat 2 2)
                * (!![(1:ℝ), 0] - !![(0:ℝ), 0])ᵀ) 0 0 * (1 / 2)))
            (1 - ((!![(1:ℝ), 0] - !![(0:ℝ), 0]) * (1 : Mat 2 2)
                * (!![(1:ℝ), 0] - !![(0:ℝ), 0])ᵀ) 0 0 ^ 2) := rfl
    rw [key, hr]
    have hval : atan2 (-((1:ℝ) * (1 / 2))) (1 - (1:ℝ) ^ 2) = -(π / 2) := by
      unfold atan2
      norm_num
    rw [hval]
    field_simp
  have hL1 : (linear_compute_action (1 : Mat 2 2) !![(0:ℝ), 0] none !![(1:ℝ), 0] 0 false).1
      = !![(1:ℝ), 0] := by
    show !![(1:ℝ), 0] * (1 : Mat 2 2)ᵀ + !![(0:ℝ), 0] = !![(1:ℝ), 0]
    rw [Matrix.transpose_one, Matrix.mul_one]
    ext i j
    fin_cases i
    fin_cases j <;> simp
  have hL2 : (linear_compute_action (1 : Mat 2 2) !![(0:ℝ), 0] none !![(1:ℝ), 0] 0 false).2.1
      = 0 := by
    show (1 : Mat 2 2) * (0 : Mat 2 2) * (1 : Mat 2 2)ᵀ = 0
    simp
  have hR1 : (rbf_compute_action predict2 (fun _ => !![0]) (fun _ => !![0]) (fun _ => 1e-6)
      none !![(1:ℝ), 0] 0 false).1 = !![(0:ℝ), 2] := rfl
  have hR2 : (rbf_compute_action predict2 (fun _ => !![0]) (fun _ => !![0]) (fun _ => 1e-6)
      none !![(1:ℝ), 0] 0 false).2.1 = 0 := by
    show (0 : Mat 2 2) - Matrix.diagonal (fun _ => (1e-6 : ℝ) - 1e-6) = 0
    simp
  have hM : (combined_compute_action (1 : Mat 2 2) !![(0:ℝ), 0] !![(0:ℝ), 0] (1 : Mat 2 2)
      (1 / 2) predict2 (fun _ => !![0]) (fun _ => !![0]) (fun _ => 1e-6) none
      !![(1:ℝ), 0] 0 false).1 = !![(1/2 : ℝ), 1] := by
    ext u i
    have hent : (combined_compute_action (1 : Mat 2 2) !![(0:ℝ), 0] !![(0:ℝ), 0] (1 : Mat 2 2)
        (1 / 2) predict2 (fun _ => !![0]) (fun _ => !![0]) (fun _ => 1e-6) none
        !![(1:ℝ), 0] 0 false).1 u i
        = (1 - compute_ratio !![(0:ℝ), 0] (1 : Mat 2 2) (1 / 2) !![(1:ℝ), 0])
              * (linear_compute_action (1 : Mat 2 2) !![(0:ℝ), 0] none !![(1:ℝ), 0] 0
                  false).1 u i
            + compute_ratio !![(0:ℝ), 0] (1 : Mat 2 2) (1 / 2) !![(1:ℝ), 0]
              * (rbf_compute_action predict2 (fun _ => !![0]) (fun _ => !![0])
                  (fun _ => 1e-6) none !![(1:ℝ), 0] 0 false).1 u i := rfl
    rw [hent, hratio, hL1, hR1]
    fin_cases u
    fin_cases i <;> norm_num
  have hcov : (combined_compute_action (1 : Mat 2 2) !![(0:ℝ), 0] !![(0:ℝ), 0] (1 : Mat 2 2)
      (1 / 2) predict2 (fun _ => !![0]) (fun _ => !![0]) (fun _ => 1e-6) none
      !![(1:ℝ), 0] 0 false).2.1 0 0 = 5 / 4 := by
    have hent : (combined_compute_action (1 : Mat 2 2) !![(0:ℝ), 0] !![(0:ℝ), 0] (1 : Mat 2 2)
        (1 / 2) predict2 (fun _ => !![0]) (fun _ => !![0]) (fun _ => 1e-6) none
        !![(1:ℝ), 0] 0 false).2.1 0 0
        = (1 - compute_ratio !![(0:ℝ), 0] (1 : Mat 2 2) (1 / 2) !![(1:ℝ), 0])
              * (linear_compute_action (1 : Mat 2 2) !![(0:ℝ), 0] none !![(1:ℝ), 0] 0
                  false).2.1 0 0
            + compute_ratio !![(0:ℝ), 0] (1 : Mat 2 2) (1 / 2) !![(1:ℝ), 0]
              * (rbf_compute_action predict2 (fun _ => !![0]) (fun _ => !![0])
                  (fun _ => 1e-6) none !![(1:ℝ), 0] 0 false).2.1 0 0
            + (1 - compute_ratio !![(0:ℝ), 0] (1 : Mat 2 2) (1 / 2) !![(1:ℝ), 0])
              * (((linear_compute_action (1 : Mat 2 2) !![(0:ℝ), 0] none !![(1:ℝ), 0] 0
                      false).1
                    - (combined_compute_action (1 : Mat 2 2) !![(0:ℝ), 0] !![(0:ℝ), 0]
                        (1 : Mat 2 2) (1 / 2) predict2 (fun _ => !![0]) (fun _ => !![0])
                        (fun _ => 1e-6) none !![(1:ℝ), 0] 0 false).1)
                  * ((linear_compute_action (1 : Mat 2 2) !![(0:ℝ), 0] none !![(1:ℝ), 0] 0
                      false).1
                    - (combined_compute_action (1 : Mat 2 2) !![(0:ℝ), 0] !![(0:ℝ), 0]
                        (1 : Mat 2 2) (1 / 2) predict2 (fun _ => !![0]) (fun _ => !![0])
                        (fun _ => 1e-6) none !![(1:ℝ), 0] 0 false).1)ᵀ) 0 0
            + compute_ratio !![(0:ℝ), 0] (1 : Mat 2 2) (1 / 2) !![(1:ℝ), 0]
              * (((rbf_compute_action predict2 (fun _ => !![0]) (fun _ => !![0])
                      (fun _ => 1e-6) none !![(1:ℝ), 0] 0 false).1
                    - (combined_compute_action (1 : Mat 2 2) !![(0:ℝ), 0] !![(0:ℝ), 0]
                        (1 : Mat 2 2) (1 / 2) predict2 (fun _ => !![0]) (fun _ => !![0])
                        (fun _ => 1e-6) none !![(1:ℝ), 0] 0 false).1)
                  * ((rbf_compute_action predict2 (fun _ => !![0]) (fun _ => !![0])
                      (fun _ => 1e-6) none !![(1:ℝ), 0] 0 false).1
                    - (combined_compute_action (1 : Mat 2 2) !![(0:ℝ), 0] !![(0:ℝ), 0]
                        (1 : Mat 2 2) (1 / 2) predict2 (fun _ => !![0]) (fun _ => !![0])
                        (fun _ => 1e-6) none !![(1:ℝ), 0] 0 false).1)ᵀ) 0 0 := rfl
    rw [hent, hratio, hL1, hL2, hR1, hR2, hM]
    rw [Matrix.mul_apply, Matrix.mul_apply, Fin.sum_univ_two, Fin.sum_univ_two]
    simp [Matrix.sub_apply]
    norm_num
  have houter : ((1 - (1/2 : ℝ)) • (0 : Mat 2 2) + (1/2 : ℝ) • (0 : Mat 2 2)
      + (1 - (1/2 : ℝ)) • ((!![(1:ℝ), 0] - !![(1/2 : ℝ), 1])ᵀ
          * (!![(1:ℝ), 0] - !![(1/2 : ℝ), 1]))
      + (1/2 : ℝ) • ((!![(0:ℝ), 2] - !![(1/2 : ℝ), 1])ᵀ
          * (!![(0:ℝ), 2] - !![(1/2 : ℝ), 1]))) 0 0 = 1 / 4 := by
    rw [Matrix.add_apply, Matrix.add_apply, Matrix.add_apply, Matrix.smul_apply,
      Matrix.smul_apply, Matrix.smul_apply, Matrix.smul_apply,
      Matrix.mul_apply, Matrix.mul_apply, Fin.sum_univ_one, Fin.sum_univ_one]
    simp [Matrix.sub_apply]
    norm_num
  exact ⟨hratio, hL1, hL2, hR1, hR2, hM, hcov, houter, by norm_num⟩

/-- The blended covariance of two means `M1, M2` and covariances `S1, S2` with
weight `r ∈ [0, 1]` exceeds the weighted average of `S1` and `S2` by a
positive-semidefinite matrix (the broadcast spread term is a constant
nonnegative matrix). -/
theorem blend_cov_diff_psd {c : ℕ} (r : ℝ) (hr0 : 0 ≤ r) (hr1 : r ≤ 1)
    (M1 M2 : Mat 1 c) (S1 S2 : Mat c c) :
    (Matrix.of fun i j : Fin c =>
      ((1 - r) * S1 i j + r * S2 i j
          + (1 - r) * ((M1 - Matrix.of fun u i => (1 - r) * M1 u i + r * M2 u i)
              * (M1 - Matrix.of fun u i => (1 - r) * M1 u i + r * M2 u i)ᵀ) 0 0
          + r * ((M2 - Matrix.of fun u i => (1 - r) * M1 u i + r * M2 u i)
              * (M2 - Matrix.of fun u i => (1 - r) * M1 u i + r * M2 u i)ᵀ) 0 0)
        - ((1 - r) * S1 i j + r * S2 i j)).PosSemidef := by
  have hmat : (Matrix.of fun i j : Fin c =>
      ((1 - r) * S1 i j + r * S2 i j
          + (1 - r) * ((M1 - Matrix.of fun u i => (1 - r) * M1 u i + r * M2 u i)
              * (M1 - Matrix.of fun u i => (1 - r) * M1 u i + r * M2 u i)ᵀ) 0 0
          + r * ((M2 - Matrix.of fun u i => (1 - r) * M1 u i + r * M2 u i)
              * (M2 - Matrix.of fun u i => (1 - r) * M1 u i + r * M2 u i)ᵀ) 0 0)
        - ((1 - r) * S1 i j + r * S2 i j))
      = Matrix.of fun _ _ : Fin c =>
          ((1 - r) * ((M1 - Matrix.of fun u i => (1 - r) * M1 u i + r * M2 u i)
              * (M1 - Matrix.of fun u i => (1 - r) * M1 u i + r * M2 u i)ᵀ) 0 0
            + r * ((M2 - Matrix.of fun u i => (1 - r) * M1 u i + r * M2 u i)
              * (M2 - Matrix.of fun u i => (1 - r) * M1 u i + r * M2 u i)ᵀ) 0 0) := by
    ext i j
    simp only [Matrix.of_apply]
    ring
  rw [hmat]
  refine posSemidef_const_matrix c _ (add_nonneg (mul_nonneg (by linarith) ?_)
    (mul_nonneg hr0 ?_))
  · exact rowrow_entry_nonneg _
  · exact rowrow_entry_nonneg _

/-- Claim C6: for every state belief, positive-definite gate matrix and
positive sharpness (the sharpness is constrained positive in the constructor),
the unsquashed covariance returned by `CombinedController.compute_action`
dominates the ratio-weighted average of the two sub-controllers' covariances
in the positive-semidefinite order. -/
theorem combined_cov_dominates (n c p : ℕ)
    (W : Mat c n) (b : Mat 1 c) (a : Mat 1 n) (Sg : Mat n n) (zeta : ℝ)
    (predict : Mat 1 n → Mat n n → (Fin c → Mat p p) → (Fin c → Mat p 1) →
      Mat 1 c × Mat c c × Mat n c)
    (iK : Fin c → Mat p p) (beta : Fin c → Mat p 1) (variance : Fin c → ℝ)
    (ma : Option (Fin c → ℝ)) (m : Mat 1 n) (s : Mat n n)
    (hS : Sg.PosDef) (hz : 0 < zeta) :
    (Matrix.of fun i j : Fin c =>
      (combined_compute_action W b a Sg zeta predict iK beta variance ma m s false).2.1 i j
        - ((1 - compute_ratio a Sg zeta m)
              * (linear_compute_action W b ma m s false).2.1 i j
            + compute_ratio a Sg zeta m
              * (rbf_compute_action predict iK beta variance ma m s false).2.1 i j)).PosSemidef := by
  obtain ⟨hr0, hr1⟩ := compute_ratio_bounds_aux m hS.posSemidef hz
  exact blend_cov_diff_psd (compute_ratio a Sg zeta m) hr0 (le_of_lt hr1)
    (linear_compute_action W b ma m s false).1
    (rbf_compute_action predict iK beta variance ma m s false).1
    (linear_compute_action W b ma m s false).2.1
    (rbf_compute_action predict iK beta variance ma m s false).2.1

/-- Witness for claim C6, in dimension one with identity-like parameters. -/
theorem combined_cov_dominates_witness :
    (!![(1:ℝ)]).PosDef ∧ (0:ℝ) < 1 ∧
    (Matrix.of fun i j : Fin 1 =>
      (combined_compute_action !![(1:ℝ)] !![(0:ℝ)] !![(0:ℝ)] !![(1:ℝ)] 1 predict1
          (fun _ => !![0]) (fun _ => !![0]) (fun _ => 0) none !![(0:ℝ)] !![(0:ℝ)]
          false).2.1 i j
        - ((1 - compute_ratio !![(0:ℝ)] !![(1:ℝ)] 1 !![(0:ℝ)])
              * (linear_compute_action !![(1:ℝ)] !![(0:ℝ)] none !![(0:ℝ)] !![(0:ℝ)]
                  false).2.1 i j
            + compute_ratio !![(0:ℝ)] !![(1:ℝ)] 1 !![(0:ℝ)]
              * (rbf_compute_action predict1 (fun _ => !![0]) (fun _ => !![0]) (fun _ => 0)
                  none !![(0:ℝ)] !![(0:ℝ)] false).2.1 i j)).PosSemidef :=
  ⟨one_one_posDef, one_pos,
    combined_cov_dominates 1 1 1 !![(1:ℝ)] !![(0:ℝ)] !![(0:ℝ)] !![(1:ℝ)] 1 predict1
      (fun _ => !![0]) (fun _ => !![0]) (fun _ => 0) none !![(0:ℝ)] !![(0:ℝ)]
      one_one_posDef one_pos⟩

end

end PILCO
